import Mathlib

/-!
Verification of the TradeByWeex trading-strategy frontend and of the
spec-described trading core.

The definitions below are shallow embeddings of:

* the TypeScript strategy data model (types/strategy.ts);
* the formatting helpers in frontend/src/lib/utils.ts;
* the per-action realized-PnL display logic of ActionItem in
  strategy-compose-list.tsx and the trading-mode labels of
  StrategyComposeList and TradeStrategyCard;
* the three-step create-strategy modal (create-strategy-modal.tsx):
  the zod step-2 union schema and the step-3 payload submitted to
  POST /strategies/create;
* the Total Equity selection and the enhanced price curve of
  PortfolioPositionsGroup (portfolio-positions-group.tsx);
* the portfolio ledger (apply_trades) and composer guardrails of the
  Python trading core, whose implementation files are not part of this
  source snapshot; those are modelled from the specification text
  (sections 4.2 and 4.4) and from the data model declared in
  common/trading/README.md.

Numbers are modelled as rationals: the TypeScript and Python code uses
binary floating point, but every claim below is about control flow,
field selection and exact arithmetic identities, not about rounding of
binary floats.
-/

/-! ## Frontend data model (frontend/src/types/strategy.ts) -/

/-- Status of a strategy, from the union type
`status: "running" | "stopped"` on the `Strategy` interface. -/
inductive StrategyStatus where
  | running
  | stopped
deriving DecidableEq

/-- Trading mode, from the union type `trading_mode: "live" | "virtual"`. -/
inductive TradingMode where
  | live
  | virtual
deriving DecidableEq

/-- Strategy type, from `strategy_type: "PromptBasedStrategy" | "GridStrategy"`. -/
inductive StrategyType where
  | promptBasedStrategy
  | gridStrategy
deriving DecidableEq

/-- Trade side, from `side: "BUY" | "SELL"` on `StrategyAction` and on the
`TradeInstruction` data model of the trading core. -/
inductive TradeSide where
  | buy
  | sell
deriving DecidableEq

/-- Action kind, from the union type
`action: "open_long" | "open_short" | "close_long" | "close_short"`. -/
inductive ActionKind where
  | open_long
  | open_short
  | close_long
  | close_short
deriving DecidableEq

/-- The literal string carried by each `action` value. -/
def ActionKind.name : ActionKind → String
  | .open_long => "open_long"
  | .open_short => "open_short"
  | .close_long => "close_long"
  | .close_short => "close_short"

/-- The `Strategy` interface of types/strategy.ts. -/
structure Strategy where
  strategy_id : String
  strategy_name : String
  strategy_type : StrategyType
  status : StrategyStatus
  trading_mode : TradingMode
  unrealized_pnl : ℚ
  unrealized_pnl_pct : ℚ
  created_at : String
  exchange_id : String
  model_id : String
deriving DecidableEq

/-- The `StrategyAction` interface of types/strategy.ts. -/
structure StrategyAction where
  instruction_id : String
  symbol : String
  action : ActionKind
  action_display : String
  side : TradeSide
  quantity : ℚ
  leverage : ℚ
  entry_price : ℚ
  exit_price : Option ℚ
  entry_at : String
  exit_at : Option String
  fee_cost : ℚ
  realized_pnl : ℚ
  realized_pnl_pct : ℚ
  rationale : String
  holding_time_ms : ℚ
deriving DecidableEq

/-- The `ExchangeAsset` interface of types/strategy.ts. -/
structure ExchangeAsset where
  coin_id : ℤ
  coin_name : String
  available : ℚ
  frozen : ℚ
  equity : ℚ
  unrealized_pnl : ℚ
deriving DecidableEq

/-- The `StrategyAssets` interface of types/strategy.ts. -/
structure StrategyAssets where
  strategy_id : String
  exchange_id : String
  assets : List ExchangeAsset
deriving DecidableEq

/-- The `AccountInfo` interface of types/strategy.ts (numeric fields;
the opaque `account` / `collateral` / `position` records are not read by
the components embedded here). -/
structure AccountInfo where
  strategy_id : String
  exchange_id : String
  total_equity : ℚ
  total_available : ℚ
  total_frozen : ℚ
deriving DecidableEq

/-- The `PortfolioSummary` interface of types/strategy.ts. -/
structure PortfolioSummary where
  cash : ℚ
  total_value : ℚ
  total_pnl : ℚ
deriving DecidableEq

/-! ## Formatting helpers (frontend/src/lib/utils.ts)

`numberFixed` renders a number with at most `decimals` fraction digits
(Intl.NumberFormat en-US with minimumFractionDigits 0, no grouping);
`formatChange` prepends the sign, and `getChangeType` classifies a change
as positive / negative / neutral. TypeScript `undefined` arguments are
modelled with `Option`. -/

/-- Color classification returned by `getChangeType`
(frontend/src/types/stock.ts, StockChangeType). -/
inductive StockChangeType where
  | positive
  | negative
  | neutral
deriving DecidableEq

/-- Decimal digits of a natural number, most significant first. -/
def natDigits (n : Nat) : List Char :=
  if h : n < 10 then
    [Char.ofNat (48 + n)]
  else
    natDigits (n / 10) ++ [Char.ofNat (48 + n % 10)]
  termination_by n
  decreasing_by
    exact Nat.div_lt_self (by omega) (by omega)

/-- Left-pad a digit list with zeros to length `n`. -/
def padZeros (l : List Char) (n : Nat) : List Char :=
  List.replicate (n - l.length) '0' ++ l

/-- Drop trailing zero characters (Intl minimumFractionDigits 0 trims
trailing zeros of the fraction part). -/
def dropTrailingZeros (l : List Char) : List Char :=
  (l.reverse.dropWhile (fun c => c == '0')).reverse

/-- Decimal rendering of a nonnegative rational with at most `decimals`
fraction digits, rounding half away from zero (the Intl default). -/
def renderFixed (q : ℚ) (decimals : Nat) : String :=
  let scaled : Nat := (q * (10 : ℚ) ^ decimals + 1 / 2).floor.toNat
  let ip := scaled / 10 ^ decimals
  let fp := scaled % 10 ^ decimals
  let frac := dropTrailingZeros (padZeros (natDigits fp) decimals)
  (natDigits ip ++ if frac.isEmpty then [] else '.' :: frac).asString

/-- Embedding of `numberFixed(number?, decimals)`: `"-"` for a missing
number, otherwise the fixed-point rendering (with a leading minus sign
for negative input). -/
def numberFixed (number : Option ℚ) (decimals : Nat) : String :=
  match number with
  | none => "-"
  | some q => if q < 0 then "-" ++ renderFixed (-q) decimals else renderFixed q decimals

/-- Embedding of `formatChange(changePercent?, suffix, decimals)`. -/
def formatChange (changePercent : Option ℚ) (suffix : String) (decimals : Nat) : String :=
  match changePercent with
  | none => "N/A"
  | some c =>
    let sign := if 0 < c then "+" else "-"
    let value := numberFixed (some |c|) decimals
    if value = "0" then value ++ suffix else sign ++ value ++ suffix

/-- Embedding of `getChangeType(changePercent?)`. -/
def getChangeType (changePercent : Option ℚ) : StockChangeType :=
  match changePercent with
  | none => .neutral
  | some c => if c = 0 then .neutral else if 0 < c then .positive else .negative

/-! ## Substring test (JavaScript String.prototype.includes) -/

/-- Whether `pat` is an initial segment of `hay`. -/
def charsStartWith : List Char → List Char → Bool
  | [], _ => true
  | _ :: _, [] => false
  | p :: ps, h :: hs => p == h && charsStartWith ps hs

/-- Whether `pat` occurs contiguously inside `hay`. -/
def charsIncl (pat : List Char) : List Char → Bool
  | [] => charsStartWith pat []
  | h :: hs => charsStartWith pat (h :: hs) || charsIncl pat hs

/-- Embedding of `s.includes(pat)` for strings. -/
def strIncludes (s pat : String) : Bool :=
  charsIncl pat.toList s.toList

/-! ## ActionItem realized-PnL display (strategy-compose-list.tsx)

The `useMemo` in `ActionItem` computes the pair `[pnl_value, changeType]`:
a dash with neutral coloring unless the action name contains "close", in
which case the signed formatted `realized_pnl` and its change type. -/

/-- The `[pnl_value, changeType]` pair computed by `ActionItem`. -/
def actionPnlDisplay (a : StrategyAction) : String × StockChangeType :=
  if !(strIncludes a.action.name "close") then
    ("-", getChangeType none)
  else
    (formatChange (some a.realized_pnl) "" 4, getChangeType (some a.realized_pnl))

/-! ## Trading-mode labels and the strategy-card status action -/

/-- Header label of the trading-history pane (`StrategyComposeList`):
`tradingMode === "live" ? "Live Trading" : "Virtual Trading"`. -/
def tradingHistoryModeLabel (m : TradingMode) : String :=
  if m = .live then "Live Trading" else "Virtual Trading"

/-- Mode badge on the strategy card (`TradeStrategyCard`):
`strategy.trading_mode === "live" ? "Live" : "Virtual"`. -/
def strategyCardModeBadge (m : TradingMode) : String :=
  if m = .live then "Live" else "Virtual"

/-- The confirmation dialog offered by the status button of a strategy
card. -/
inductive CardDialog where
  | startConfirm
  | stopConfirm
deriving DecidableEq

/-- The dialog rendered by `TradeStrategyCard`:
`strategy.status === "stopped"` shows the Start confirmation, any other
status shows the Stop confirmation. -/
def cardStatusDialog (s : Strategy) : CardDialog :=
  if s.status = .stopped then .startConfirm else .stopConfirm

/-! ## Create-strategy modal, step 2 (zod union schema `step2Schema`) -/

/-- The step-2 form values (all plain strings; `trading_mode` is a string
as seen by the zod validator). -/
structure Step2Values where
  trading_mode : String
  exchange_id : String
  api_key : String
  secret_key : String
  passphrase : String
  wallet_address : String
  private_key : String
deriving DecidableEq

/-- First union branch: virtual trading; every credential field is an
unconstrained string. -/
def step2Virtual (v : Step2Values) : Bool :=
  v.trading_mode == "virtual"

/-- Second union branch: live trading on Hyperliquid; wallet address and
private key must have length at least 1. -/
def step2Hyperliquid (v : Step2Values) : Bool :=
  v.trading_mode == "live" && v.exchange_id == "hyperliquid" &&
    decide (1 ≤ v.wallet_address.length) && decide (1 ≤ v.private_key.length)

/-- Third union branch: live trading on OKX, Coinbase Exchange or WEEX;
api key, secret key and passphrase must have length at least 1. -/
def step2WithPassphrase (v : Step2Values) : Bool :=
  v.trading_mode == "live" &&
    (v.exchange_id == "okx" || v.exchange_id == "coinbaseexchange" ||
      v.exchange_id == "weex") &&
    decide (1 ≤ v.api_key.length) && decide (1 ≤ v.secret_key.length) &&
    decide (1 ≤ v.passphrase.length)

/-- Fourth union branch: live trading on a standard exchange; api key and
secret key must have length at least 1. -/
def step2Standard (v : Step2Values) : Bool :=
  v.trading_mode == "live" &&
    (v.exchange_id == "binance" || v.exchange_id == "blockchaincom" ||
      v.exchange_id == "gate" || v.exchange_id == "mexc") &&
    decide (1 ≤ v.api_key.length) && decide (1 ≤ v.secret_key.length)

/-- Embedding of `step2Schema`: a zod union passes exactly when some
branch passes. -/
def step2Valid (v : Step2Values) : Bool :=
  step2Virtual v || step2Hyperliquid v || step2WithPassphrase v || step2Standard v

/-! ## Create-strategy modal, step 3 and the submitted payload -/

/-- The step-3 form values validated by `step3Schema` and submitted as
`trading_config`. -/
structure Step3Values where
  strategy_type : StrategyType
  strategy_name : String
  initial_capital : ℚ
  max_leverage : ℚ
  symbols : List String
  template_id : String
deriving DecidableEq

/-- A JSON field value of the create-strategy payload. -/
inductive JsonValue where
  | str (s : String)
  | num (q : ℚ)
  | strList (l : List String)
deriving DecidableEq

/-- The `trading_config` object submitted by `form3.onSubmit`
(`trading_config: value` where `value` is the validated step-3 record),
as an ordered field map. -/
def tradingConfigPayload (v : Step3Values) : List (String × JsonValue) :=
  [("strategy_type", .str (match v.strategy_type with
      | .promptBasedStrategy => "PromptBasedStrategy"
      | .gridStrategy => "GridStrategy")),
   ("strategy_name", .str v.strategy_name),
   ("initial_capital", .num v.initial_capital),
   ("max_leverage", .num v.max_leverage),
   ("symbols", .strList v.symbols),
   ("template_id", .str v.template_id)]

/-- Field lookup in a JSON object. -/
def jsonLookup (fields : List (String × JsonValue)) (key : String) : Option JsonValue :=
  match fields with
  | [] => none
  | (k, val) :: rest => if k == key then some val else jsonLookup rest key

/-! ## PortfolioPositionsGroup: Total Equity selection

Embedding of the data-source priority logic of
`PortfolioPositionsGroup` (accountInfo over exchange assets over
summary). The `x || 0` guards of the source are identities on rationals
(they only replace 0 or NaN by 0) and are dropped. -/

/-- `hasAccountInfo`: accountInfo is present with positive total equity
or positive total available balance. -/
def hasAccountInfo (accountInfo : Option AccountInfo) : Bool :=
  match accountInfo with
  | some ai => decide (0 < ai.total_equity) || decide (0 < ai.total_available)
  | none => false

/-- `hasAssets`: an assets record is present with a nonempty asset list. -/
def hasAssets (assets : Option StrategyAssets) : Bool :=
  match assets with
  | some a => !a.assets.isEmpty
  | none => false

/-- `isWeex`: `exchangeId?.toLowerCase() === "weex"`. -/
def isWeex (exchangeId : Option String) : Bool :=
  match exchangeId with
  | some e => e.toLower == "weex"
  | none => false

/-- Whether an asset is included in the per-asset accumulation loop: on
WEEX only USDT / USD / USDC (compared on the uppercased coin name), on
other exchanges every asset. -/
def includeAsset (weex : Bool) (a : ExchangeAsset) : Bool :=
  if weex then
    a.coin_name.toUpper == "USDT" || a.coin_name.toUpper == "USD" ||
      a.coin_name.toUpper == "USDC"
  else
    true

/-- One accumulator of the asset loop: the sum of `f` over the included
assets. -/
def sumAssetField (weex : Bool) (l : List ExchangeAsset) (f : ExchangeAsset → ℚ) : ℚ :=
  (l.filter (includeAsset weex)).foldl (fun acc a => acc + f a) 0

/-- The asset list carried by an optional `StrategyAssets`. -/
def assetList (assets : Option StrategyAssets) : List ExchangeAsset :=
  match assets with
  | some a => a.assets
  | none => []

/-- Embedding of the `displayTotalEquity` computation of
`PortfolioPositionsGroup`. -/
def displayTotalEquity (accountInfo : Option AccountInfo) (assets : Option StrategyAssets)
    (summary : Option PortfolioSummary) (exchangeId : Option String) : ℚ :=
  let hAI := hasAccountInfo accountInfo
  let hAs := hasAssets assets
  let weex := isWeex exchangeId
  let aTE := if !hAI && hAs then sumAssetField weex (assetList assets) (fun a => a.equity) else 0
  let aAB := if !hAI && hAs then sumAssetField weex (assetList assets) (fun a => a.available) else 0
  let useAssetsData := !hAI && hAs && (decide (0 < aTE) || decide (0 < aAB))
  if hAI then
    match accountInfo with
    | some ai => ai.total_equity
    | none => 0
  else if useAssetsData then
    aTE
  else
    match summary with
    | some s => s.total_value
    | none => 0

/-- Total Equity selection as claim C8 words it: accountInfo when present
with positive equity or availability; otherwise the restricted equity sum
when assets are present and that sum is positive; otherwise the summary
total value, defaulting to 0. -/
def displayTotalEquityClaimC8 (accountInfo : Option AccountInfo) (assets : Option StrategyAssets)
    (summary : Option PortfolioSummary) (exchangeId : Option String) : ℚ :=
  let eqSum := sumAssetField (isWeex exchangeId) (assetList assets) (fun a => a.equity)
  if hasAccountInfo accountInfo then
    match accountInfo with
    | some ai => ai.total_equity
    | none => 0
  else if hasAssets assets ∧ 0 < eqSum then
    eqSum
  else
    match summary with
    | some s => s.total_value
    | none => 0

/-- Total Equity selection as amended: the assets branch is taken when
the equity sum or the available-balance sum over the included assets is
positive. -/
def displayTotalEquityAmended (accountInfo : Option AccountInfo) (assets : Option StrategyAssets)
    (summary : Option PortfolioSummary) (exchangeId : Option String) : ℚ :=
  let eqSum := sumAssetField (isWeex exchangeId) (assetList assets) (fun a => a.equity)
  let avSum := sumAssetField (isWeex exchangeId) (assetList assets) (fun a => a.available)
  if hasAccountInfo accountInfo then
    match accountInfo with
    | some ai => ai.total_equity
    | none => 0
  else if hasAssets assets ∧ (0 < eqSum ∨ 0 < avSum) then
    eqSum
  else
    match summary with
    | some s => s.total_value
    | none => 0

/-! ## PortfolioPositionsGroup: enhanced price curve

`enhancedPriceCurve` clones the backend price curve and merges one point
for "now" into it: if a data row within the same minute exists, the first
such row is overwritten with `[timeStr, displayTotalEquity]`; otherwise
the point is spliced in before the first row whose time string compares
greater than `timeStr`. Both loops of the source run over indices 1..n
and never touch the header row, so the embedding works on the list of
data rows; a data row `[time, value]` is a `String × ℚ` pair. When the
incoming curve is empty the source emits a fresh header plus the single
current point, whose data rows coincide with the insertion path on an
empty row list. -/

/-- A data row of the price curve: time string and portfolio value. -/
abbrev CurveRow : Type := String × ℚ

/-- JavaScript lexicographic `<` on strings, stated on the character
lists (by `String.lt_iff_toList_lt` this is exactly the order of
`String`). -/
def jsLt (a b : String) : Prop :=
  a.toList < b.toList

/-- JavaScript lexicographic `≤` on strings. -/
def jsLe (a b : String) : Prop :=
  a.toList ≤ b.toList

instance (a b : String) : Decidable (jsLt a b) := by
  unfold jsLt
  infer_instance

instance (a b : String) : Decidable (jsLe a b) := by
  unfold jsLe
  infer_instance

/-- JavaScript `s.slice(0, 16)`: the minute prefix of a time string. -/
def minutePrefix (s : String) : List Char :=
  s.toList.take 16

/-- Index of the first data row whose minute prefix equals
`currentMinute` (the `existingIndex` loop, shifted to data rows). -/
def findSameMinuteIdx (currentMinute : List Char) : List CurveRow → Option Nat
  | [] => none
  | r :: rs =>
    if minutePrefix r.1 = currentMinute then some 0
    else (findSameMinuteIdx currentMinute rs).map (· + 1)

/-- Index before the first data row whose time compares greater than
`timeStr`, or the number of rows (the `insertIndex` loop, shifted to data
rows). -/
def insertIdxOf (timeStr : String) : List CurveRow → Nat
  | [] => 0
  | r :: rs => if jsLt timeStr r.1 then 0 else insertIdxOf timeStr rs + 1

/-- Splice a row in at position `n` (`curve.splice(insertIndex, 0, row)`);
positions past the end append. -/
def spliceAt (n : Nat) (x : CurveRow) (l : List CurveRow) : List CurveRow :=
  match n, l with
  | 0, l => x :: l
  | _ + 1, [] => [x]
  | n + 1, r :: rs => r :: spliceAt n x rs

/-- The data rows of the enhanced price curve for current time `timeStr`
and displayed equity `v`. -/
def enhancedRows (timeStr : String) (v : ℚ) (rows : List CurveRow) : List CurveRow :=
  match findSameMinuteIdx (minutePrefix timeStr) rows with
  | some i => rows.set i (timeStr, v)
  | none => spliceAt (insertIdxOf timeStr rows) (timeStr, v) rows

/-- The data rows of `enhancedPriceCurve`: the merge runs only when
exchange data is in use and the displayed equity is positive, otherwise
the incoming curve is passed through. -/
def enhancedPriceCurve (useExchangeData : Bool) (timeStr : String) (v : ℚ)
    (rows : List CurveRow) : List CurveRow :=
  if useExchangeData && decide (0 < v) then enhancedRows timeStr v rows else rows

/-- Rows sorted in non-decreasing order of their time strings. -/
def rowsSortedByTime (rows : List CurveRow) : Prop :=
  List.Pairwise (fun a b : CurveRow => jsLe a.1 b.1) rows

instance (rows : List CurveRow) : Decidable (rowsSortedByTime rows) := by
  unfold rowsSortedByTime
  infer_instance

/-! ## Trading core: portfolio ledger

Modelled from the spec: the implementation files of the Python trading
core (common/trading/portfolio/in_memory.py and the DTO module
common/trading/models.py) are not part of this source snapshot; the
definitions below follow section 4.4 of the specification ("Applying a
trade: increases/decreases the relevant position's signed quantity by
filled_qty according to side; on a fill that crosses zero or fully closes
a position, realized PnL is computed from average entry price vs.
execution price ...; partial fills update average entry price via
weighted average, not replacement. REJECTED/ERROR results are no-ops on
the ledger.") and the field lists declared in common/trading/README.md.
Cash moves by realized PnL minus fees, matching the section 8 paper
round-trip scenario. -/

/-- Transaction status, from
`status: TxStatus` with values FILLED, PARTIAL, REJECTED, ERROR. -/
inductive TxStatus where
  | filled
  | partialFill
  | rejected
  | error
deriving DecidableEq

/-- The `TxResult` record of the trading core data model. -/
structure TxResult where
  instruction_id : String
  instrument : String
  side : TradeSide
  status : TxStatus
  requested_qty : ℚ
  filled_qty : ℚ
  avg_exec_price : Option ℚ
  fee_cost : Option ℚ
  leverage : Option ℚ
deriving DecidableEq

/-- The `PositionSnapshot` record: signed quantity (positive long,
negative short), average entry price and leverage. -/
structure PositionSnapshot where
  quantity : ℚ
  avg_price : ℚ
  leverage : ℚ
deriving DecidableEq

/-- The ledger state owned by the portfolio service: cash, positions by
symbol, and the realized PnL of emitted close events. -/
structure PortfolioState where
  cash : ℚ
  positions : List (String × PositionSnapshot)
  realized_closes : List ℚ
deriving DecidableEq

/-- Position lookup by symbol. -/
def lookupPos : List (String × PositionSnapshot) → String → Option PositionSnapshot
  | [], _ => none
  | (k, p) :: rest, sym => if k = sym then some p else lookupPos rest sym

/-- Insert or replace the position stored under a symbol. -/
def upsertPos : List (String × PositionSnapshot) → String → PositionSnapshot →
    List (String × PositionSnapshot)
  | [], sym, p => [(sym, p)]
  | (k, q) :: rest, sym, p =>
    if k = sym then (sym, p) :: rest else (k, q) :: upsertPos rest sym p

/-- Remove the position stored under a symbol. -/
def removePos : List (String × PositionSnapshot) → String → List (String × PositionSnapshot)
  | [], _ => []
  | (k, q) :: rest, sym => if k = sym then rest else (k, q) :: removePos rest sym

/-- Modelled from the spec: applying one `TxResult` to the ledger
(section 4.4). REJECTED and ERROR results return the state unchanged;
FILLED and PARTIAL results move the signed quantity by `filled_qty`
according to side, average the entry price on same-side increases,
realize PnL against the average entry price on reductions, and emit a
close event when quantity reaches or crosses zero. -/
def applyTrade (st : PortfolioState) (r : TxResult) : PortfolioState :=
  match r.status with
  | .rejected => st
  | .error => st
  | .filled | .partialFill =>
    let px := r.avg_exec_price.getD 0
    let fee := r.fee_cost.getD 0
    let lev := r.leverage.getD 1
    let delta : ℚ := match r.side with | .buy => r.filled_qty | .sell => -r.filled_qty
    let q0 : ℚ := match lookupPos st.positions r.instrument with
      | some p => p.quantity
      | none => 0
    let a0 : ℚ := match lookupPos st.positions r.instrument with
      | some p => p.avg_price
      | none => 0
    if q0 = 0 then
      { st with
        cash := st.cash - fee,
        positions := upsertPos st.positions r.instrument ⟨delta, px, lev⟩ }
    else if 0 < q0 * delta then
      { st with
        cash := st.cash - fee,
        positions := upsertPos st.positions r.instrument
          ⟨q0 + delta, (|q0| * a0 + |delta| * px) / (|q0| + |delta|), lev⟩ }
    else
      let closedQty := min |delta| |q0|
      let realized := (if 0 < q0 then px - a0 else a0 - px) * closedQty
      let newQty := q0 + delta
      if newQty = 0 then
        { cash := st.cash + realized - fee,
          positions := removePos st.positions r.instrument,
          realized_closes := st.realized_closes ++ [realized] }
      else if 0 < q0 * newQty then
        { cash := st.cash + realized - fee,
          positions := upsertPos st.positions r.instrument ⟨newQty, a0, lev⟩,
          realized_closes := st.realized_closes }
      else
        { cash := st.cash + realized - fee,
          positions := upsertPos st.positions r.instrument ⟨newQty, px, lev⟩,
          realized_closes := st.realized_closes ++ [realized] }

/-- Modelled from the spec: `apply_trades` applies each result of the
batch in order. -/
def applyTrades (st : PortfolioState) (trades : List TxResult) : PortfolioState :=
  trades.foldl applyTrade st

/-- A fully filled BUY at a given price with zero fee, as produced by the
paper execution gateway for a complete fill. -/
def buyFill (sym : String) (qty price : ℚ) : TxResult :=
  ⟨"", sym, .buy, .filled, qty, qty, some price, some 0, none⟩

/-! ## Trading core: composer guardrails

Modelled from the spec: the decision composer implementation
(common/trading/decision/prompt_based/composer.py) is not part of this
source snapshot; section 4.2 requires the composer to "apply guardrails -
reject/clip instructions that would violate `constraints` (max leverage,
max concurrent positions, non-positive quantity)". -/

/-- The constraints of a `PortfolioView`: leverage and concurrent
position caps. -/
structure Constraints where
  max_leverage : ℚ
  max_positions : Nat
deriving DecidableEq

/-- The `TradeInstruction` record of the trading core data model. -/
structure TradeInstruction where
  instruction_id : String
  compose_id : String
  instrument : String
  side : TradeSide
  quantity : ℚ
  leverage : Option ℚ
  max_slippage_bps : Option ℤ
deriving DecidableEq

/-- Modelled from the spec: whether an instruction survives the
guardrails, given the symbols with an already-open position. -/
def passesGuardrails (c : Constraints) (openSymbols : List String)
    (i : TradeInstruction) : Bool :=
  decide (0 < i.quantity) &&
    decide (i.leverage.getD 1 ≤ c.max_leverage) &&
    (decide (i.instrument ∈ openSymbols) || decide (openSymbols.length < c.max_positions))

/-- Modelled from the spec: the guardrail filter applied to composer
output before it reaches the execution gateway. -/
def applyGuardrails (c : Constraints) (openSymbols : List String)
    (instructions : List TradeInstruction) : List TradeInstruction :=
  instructions.filter (passesGuardrails c openSymbols)

/-! ## Theorems -/

theorem one_le_length_iff (s : String) : 1 ≤ s.length ↔ s ≠ "" := by
  constructor
  · intro h he
    subst he
    simp at h
  · intro h
    cases s with
    | mk data =>
      cases data with
      | nil => simp at h
      | cons c cs => simp [String.length]

/-- Claim C4: every Strategy status is exactly "running" or "stopped", and
the strategy card offers the Start confirmation exactly when the status is
"stopped" and the Stop confirmation exactly when it is "running". -/
theorem strategy_card_status_action (s : Strategy) :
    (s.status = .running ∨ s.status = .stopped) ∧
    (cardStatusDialog s = .startConfirm ↔ s.status = .stopped) ∧
    (cardStatusDialog s = .stopConfirm ↔ s.status = .running) := by
  cases h : s.status <;> simp [cardStatusDialog, h]

/-- Claim C7: every trading_mode is "live" or "virtual"; the
trading-history header reads "Live Trading" exactly for live mode and
"Virtual Trading" otherwise, and the card badge reads "Live" exactly for
live mode and "Virtual" otherwise. -/
theorem trading_mode_labels (s : Strategy) :
    (s.trading_mode = .live ∨ s.trading_mode = .virtual) ∧
    (tradingHistoryModeLabel s.trading_mode = "Live Trading" ↔ s.trading_mode = .live) ∧
    (tradingHistoryModeLabel s.trading_mode = "Virtual Trading" ↔ s.trading_mode ≠ .live) ∧
    (strategyCardModeBadge s.trading_mode = "Live" ↔ s.trading_mode = .live) ∧
    (strategyCardModeBadge s.trading_mode = "Virtual" ↔ s.trading_mode ≠ .live) := by
  cases h : s.trading_mode <;>
    simp [tradingHistoryModeLabel, strategyCardModeBadge, h]

/-- Claim C1 (counterexample): a concrete strategy-creation submission
whose trading_config carries no max_positions, decide_interval or
custom_prompt field, refuting the claimed field list. -/
theorem create_strategy_payload_counterexample :
    jsonLookup
      (tradingConfigPayload
        ⟨.promptBasedStrategy, "My Strategy", 1000, 2, ["BTC-USDT"], "tpl-momentum"⟩)
      "max_positions" = none ∧
    jsonLookup
      (tradingConfigPayload
        ⟨.promptBasedStrategy, "My Strategy", 1000, 2, ["BTC-USDT"], "tpl-momentum"⟩)
      "decide_interval" = none ∧
    jsonLookup
      (tradingConfigPayload
        ⟨.promptBasedStrategy, "My Strategy", 1000, 2, ["BTC-USDT"], "tpl-momentum"⟩)
      "custom_prompt" = none := by
  exact ⟨rfl, rfl, rfl⟩

/-- Claim C1 (amended): every submitted trading_config carries exactly the
fields strategy_type, strategy_name, initial_capital, max_leverage,
symbols and template_id, each holding the corresponding form value, and
carries no max_positions, decide_interval or custom_prompt field. -/
theorem create_strategy_payload_fields (v : Step3Values) :
    (tradingConfigPayload v).map Prod.fst =
      ["strategy_type", "strategy_name", "initial_capital", "max_leverage",
        "symbols", "template_id"] ∧
    jsonLookup (tradingConfigPayload v) "strategy_name" = some (.str v.strategy_name) ∧
    jsonLookup (tradingConfigPayload v) "initial_capital" = some (.num v.initial_capital) ∧
    jsonLookup (tradingConfigPayload v) "max_leverage" = some (.num v.max_leverage) ∧
    jsonLookup (tradingConfigPayload v) "symbols" = some (.strList v.symbols) ∧
    jsonLookup (tradingConfigPayload v) "template_id" = some (.str v.template_id) ∧
    jsonLookup (tradingConfigPayload v) "max_positions" = none ∧
    jsonLookup (tradingConfigPayload v) "decide_interval" = none ∧
    jsonLookup (tradingConfigPayload v) "custom_prompt" = none := by
  exact ⟨rfl, rfl, rfl, rfl, rfl, rfl, rfl, rfl, rfl⟩

/-- Claim C9: the step-2 exchange configuration passes validation exactly
when the trading mode is virtual, or it is live on hyperliquid with
non-empty wallet address and private key, or live on okx, coinbaseexchange
or weex with non-empty api key, secret key and passphrase, or live on
binance, blockchaincom, gate or mexc with non-empty api key and secret
key. -/
theorem step2_validation (v : Step2Values) :
    step2Valid v = true ↔
      v.trading_mode = "virtual" ∨
      (v.trading_mode = "live" ∧ v.exchange_id = "hyperliquid" ∧
        v.wallet_address ≠ "" ∧ v.private_key ≠ "") ∨
      (v.trading_mode = "live" ∧
        (v.exchange_id = "okx" ∨ v.exchange_id = "coinbaseexchange" ∨
          v.exchange_id = "weex") ∧
        v.api_key ≠ "" ∧ v.secret_key ≠ "" ∧ v.passphrase ≠ "") ∨
      (v.trading_mode = "live" ∧
        (v.exchange_id = "binance" ∨ v.exchange_id = "blockchaincom" ∨
          v.exchange_id = "gate" ∨ v.exchange_id = "mexc") ∧
        v.api_key ≠ "" ∧ v.secret_key ≠ "") := by
  simp only [step2Valid, step2Virtual, step2Hyperliquid, step2WithPassphrase,
    step2Standard, Bool.or_eq_true, Bool.and_eq_true, beq_iff_eq,
    decide_eq_true_eq, one_le_length_iff]
  tauto

theorem natDigits_ne_nil (n : Nat) : natDigits n ≠ [] := by
  rw [natDigits]
  split
  · simp
  · simp

theorem renderFixed_ne_empty (q : ℚ) (d : Nat) : renderFixed q d ≠ "" := by
  unfold renderFixed
  intro h
  have hlen := congrArg String.length h
  rw [List.length_asString] at hlen
  have h0 : ("" : String).length = 0 := rfl
  rw [h0, List.length_append] at hlen
  have := List.length_pos.mpr
    (natDigits_ne_nil ((q * (10 : ℚ) ^ d + 1 / 2).floor.toNat / 10 ^ d))
  omega

theorem one_le_length_numberFixed_abs (c : ℚ) (d : Nat) :
    1 ≤ (numberFixed (some |c|) d).length := by
  simp only [numberFixed]
  rw [if_neg (not_lt.mpr (abs_nonneg c))]
  rw [one_le_length_iff]
  exact renderFixed_ne_empty _ _

theorem formatChange_some_eq (c : ℚ) (suffix : String) (d : Nat) :
    formatChange (some c) suffix d =
      if numberFixed (some |c|) d = "0" then numberFixed (some |c|) d ++ suffix
      else (if 0 < c then "+" else "-") ++ numberFixed (some |c|) d ++ suffix := rfl

theorem formatChange_ne_dash (c : ℚ) (d : Nat) : formatChange (some c) "" d ≠ "-" := by
  rw [formatChange_some_eq]
  split
  · rename_i hv
    rw [hv]
    decide
  · intro h
    have hlen := congrArg String.length h
    rw [String.length_append, String.length_append] at hlen
    have h1 : (if 0 < c then "+" else "-" : String).length = 1 := by
      split <;> decide
    have h2 := one_le_length_numberFixed_abs c d
    have h3 : ("" : String).length = 0 := rfl
    have h4 : ("-" : String).length = 1 := rfl
    omega

theorem strIncludes_close_iff (k : ActionKind) :
    strIncludes k.name "close" =
      (decide (k = .close_long) || decide (k = .close_short)) := by
  cases k <;> rfl

/-- Claim C5: the rendered realized-PnL value of an action is the signed
formatted realized_pnl exactly when the action name contains "close", and
is a dash with neutral coloring exactly when it does not (an action name
contains "close" exactly for the close_long and close_short kinds). -/
theorem action_pnl_display (a : StrategyAction) :
    ((actionPnlDisplay a).1 = formatChange (some a.realized_pnl) "" 4 ↔
      strIncludes a.action.name "close" = true) ∧
    ((actionPnlDisplay a).1 = "-" ∧ (actionPnlDisplay a).2 = .neutral ↔
      strIncludes a.action.name "close" = false) ∧
    (strIncludes a.action.name "close" = true ↔
      (a.action = .close_long ∨ a.action = .close_short)) := by
  have hdash := formatChange_ne_dash a.realized_pnl 4
  cases h : a.action <;>
    simp [actionPnlDisplay, strIncludes_close_iff, getChangeType, h, Ne.symm hdash, hdash]

/-- Claim C8 (counterexample): with no account info, an asset list
holding a single USDT asset of zero equity but positive available
balance, and a summary totalling 7, the component displays 0 (the zero
equity sum) while the claim predicts the summary value 7. -/
theorem display_total_equity_counterexample :
    displayTotalEquity none
        (some ⟨"s1", "binance", [⟨1, "USDT", 5, 0, 0, 0⟩]⟩)
        (some ⟨0, 7, 0⟩) none = 0 ∧
    displayTotalEquityClaimC8 none
        (some ⟨"s1", "binance", [⟨1, "USDT", 5, 0, 0, 0⟩]⟩)
        (some ⟨0, 7, 0⟩) none = 7 ∧
    (0 : ℚ) ≠ 7 := by
  refine ⟨?_, ?_, by norm_num⟩
  · norm_num [displayTotalEquity, hasAccountInfo, hasAssets, isWeex, assetList,
      sumAssetField, includeAsset, List.filter, List.foldl]
  · norm_num [displayTotalEquityClaimC8, hasAccountInfo, hasAssets, isWeex, assetList,
      sumAssetField, includeAsset, List.filter, List.foldl]

/-- Claim C8 (amended): the displayed Total Equity follows the
account-info / exchange-assets / summary priority, where the assets
branch is taken when the restricted equity sum or the restricted
available-balance sum is positive. -/
theorem display_total_equity_eq_amended (accountInfo : Option AccountInfo)
    (assets : Option StrategyAssets) (summary : Option PortfolioSummary)
    (exchangeId : Option String) :
    displayTotalEquity accountInfo assets summary exchangeId =
      displayTotalEquityAmended accountInfo assets summary exchangeId := by
  unfold displayTotalEquity displayTotalEquityAmended
  by_cases hAI : hasAccountInfo accountInfo = true
  · simp [hAI]
  · rw [Bool.not_eq_true] at hAI
    by_cases hAs : hasAssets assets = true
    · by_cases hpos :
        0 < sumAssetField (isWeex exchangeId) (assetList assets) (fun a => a.equity) ∨
          0 < sumAssetField (isWeex exchangeId) (assetList assets) (fun a => a.available)
      · simp [hAI, hAs, hpos]
      · simp [hAI, hAs, hpos]
    · rw [Bool.not_eq_true] at hAs
      simp [hAI, hAs]

/-- Claim C2: applying a REJECTED or ERROR result leaves the position map
unchanged (spec-modelled ledger). -/
theorem apply_trades_noop_on_failure (st : PortfolioState) (r : TxResult)
    (h : r.status = .rejected ∨ r.status = .error) :
    (applyTrades st [r]).positions = st.positions := by
  have hfold : applyTrades st [r] = applyTrade st r := rfl
  rw [hfold]
  unfold applyTrade
  rcases h with h | h <;> rw [h]

/-- Claim C2 (witness): a concrete REJECTED result applied to a concrete
portfolio leaves its positions untouched. -/
theorem apply_trades_noop_on_failure_witness :
    ((⟨"i1", "BTC-USDT", .buy, .rejected, 1, 0, none, none, none⟩ : TxResult).status =
        .rejected ∨
      (⟨"i1", "BTC-USDT", .buy, .rejected, 1, 0, none, none, none⟩ : TxResult).status =
        .error) ∧
    (applyTrades ⟨10000, [("BTC-USDT", ⟨1, 50000, 1⟩)], []⟩
        [⟨"i1", "BTC-USDT", .buy, .rejected, 1, 0, none, none, none⟩]).positions =
      [("BTC-USDT", ⟨1, 50000, 1⟩)] :=
  ⟨Or.inl rfl,
    apply_trades_noop_on_failure ⟨10000, [("BTC-USDT", ⟨1, 50000, 1⟩)], []⟩
      ⟨"i1", "BTC-USDT", .buy, .rejected, 1, 0, none, none, none⟩ (Or.inl rfl)⟩

theorem lookupPos_upsertPos (m : List (String × PositionSnapshot)) (sym : String)
    (p : PositionSnapshot) : lookupPos (upsertPos m sym p) sym = some p := by
  induction m with
  | nil => simp [upsertPos, lookupPos]
  | cons kv rest ih =>
    obtain ⟨k, q⟩ := kv
    by_cases hk : k = sym
    · simp [upsertPos, hk, lookupPos]
    · simp [upsertPos, hk, lookupPos, ih]

/-- Claim C3: two same-side fills on a fresh position average the entry
price by quantity weights and add the quantities (spec-modelled ledger). -/
theorem position_weighted_average (st : PortfolioState) (sym : String) (q₁ p₁ q₂ p₂ : ℚ)
    (h0 : lookupPos st.positions sym = none) (h1 : 0 < q₁) (h2 : 0 < q₂) :
    lookupPos (applyTrades st [buyFill sym q₁ p₁, buyFill sym q₂ p₂]).positions sym =
      some ⟨q₁ + q₂, (q₁ * p₁ + q₂ * p₂) / (q₁ + q₂), 1⟩ := by
  have hfold : applyTrades st [buyFill sym q₁ p₁, buyFill sym q₂ p₂] =
      applyTrade (applyTrade st (buyFill sym q₁ p₁)) (buyFill sym q₂ p₂) := rfl
  rw [hfold]
  have hfirst : applyTrade st (buyFill sym q₁ p₁) =
      { st with
        cash := st.cash - 0,
        positions := upsertPos st.positions sym ⟨q₁, p₁, 1⟩ } := by
    unfold applyTrade buyFill
    simp [h0]
  rw [hfirst]
  unfold applyTrade buyFill
  simp only [lookupPos_upsertPos, Option.getD_some, Option.getD_none]
  rw [if_neg h1.ne', if_pos (mul_pos h1 h2)]
  simp [lookupPos_upsertPos, abs_of_pos h1, abs_of_pos h2]

/-- Claim C3 (witness): opening 1.0 unit at price 100 and adding 1.0 unit
at price 110 on the same side yields average entry price 105 and quantity
2.0. -/
theorem position_weighted_average_witness :
    lookupPos (⟨10000, [], []⟩ : PortfolioState).positions "BTC-USDT" = none ∧
    (0 : ℚ) < 1 ∧
    lookupPos
        (applyTrades ⟨10000, [], []⟩
          [buyFill "BTC-USDT" 1 100, buyFill "BTC-USDT" 1 110]).positions "BTC-USDT" =
      some ⟨2, 105, 1⟩ := by
  refine ⟨rfl, by norm_num, ?_⟩
  rw [position_weighted_average ⟨10000, [], []⟩ "BTC-USDT" 1 100 1 110 rfl
    (by norm_num) (by norm_num)]
  norm_num

/-- Claim C6: every instruction that survives the guardrail filter has
side BUY or SELL and strictly positive quantity (spec-modelled
guardrails; the side alternative is exhaustive by the data model). -/
theorem guardrail_instruction_valid (c : Constraints) (openSymbols : List String)
    (instrs : List TradeInstruction) (i : TradeInstruction)
    (h : i ∈ applyGuardrails c openSymbols instrs) :
    (i.side = .buy ∨ i.side = .sell) ∧ 0 < i.quantity := by
  refine ⟨?_, ?_⟩
  · cases hs : i.side
    · exact Or.inl rfl
    · exact Or.inr rfl
  · rw [applyGuardrails, List.mem_filter] at h
    have hp := h.2
    unfold passesGuardrails at hp
    simp only [Bool.and_eq_true, decide_eq_true_eq] at hp
    exact hp.1.1

/-- Claim C6 (witness): a concrete BUY instruction of quantity 1 passes
the guardrails and satisfies the side and quantity conditions. -/
theorem guardrail_instruction_valid_witness :
    (⟨"i1", "c1", "BTC-USDT", .buy, 1, none, none⟩ : TradeInstruction) ∈
      applyGuardrails ⟨5, 3⟩ []
        [⟨"i1", "c1", "BTC-USDT", .buy, 1, none, none⟩] ∧
    (((⟨"i1", "c1", "BTC-USDT", .buy, 1, none, none⟩ : TradeInstruction).side = .buy ∨
        (⟨"i1", "c1", "BTC-USDT", .buy, 1, none, none⟩ : TradeInstruction).side = .sell) ∧
      (0 : ℚ) <
        (⟨"i1", "c1", "BTC-USDT", .buy, 1, none, none⟩ : TradeInstruction).quantity) :=
  ⟨by decide,
    guardrail_instruction_valid ⟨5, 3⟩ []
      [⟨"i1", "c1", "BTC-USDT", .buy, 1, none, none⟩]
      ⟨"i1", "c1", "BTC-USDT", .buy, 1, none, none⟩ (by decide)⟩

theorem lex_of_take_lex (n : Nat) : ∀ (l₁ l₂ : List Char),
    List.Lex (· < ·) (l₁.take n) (l₂.take n) → List.Lex (· < ·) l₁ l₂ := by
  induction n with
  | zero =>
    intro l₁ l₂ h
    simp only [List.take_zero] at h
    cases h
  | succ n ih =>
    intro l₁ l₂ h
    cases l₁ with
    | nil =>
      cases l₂ with
      | nil => simp only [List.take_nil] at h; cases h
      | cons b bs => exact List.Lex.nil
    | cons a as =>
      cases l₂ with
      | nil => simp only [List.take_nil] at h; cases h
      | cons b bs =>
        simp only [List.take_succ_cons] at h
        cases h with
        | rel hr => exact List.Lex.rel hr
        | cons ht => exact List.Lex.cons (ih as bs ht)

theorem take_lex_or_eq (n : Nat) : ∀ (l₁ l₂ : List Char), List.Lex (· < ·) l₁ l₂ →
    l₁.take n = l₂.take n ∨ List.Lex (· < ·) (l₁.take n) (l₂.take n) := by
  induction n with
  | zero =>
    intro l₁ l₂ _
    left
    simp
  | succ n ih =>
    intro l₁ l₂ h
    cases h with
    | nil =>
      right
      simp only [List.take_nil, List.take_succ_cons]
      exact List.Lex.nil
    | rel hr =>
      right
      simp only [List.take_succ_cons]
      exact List.Lex.rel hr
    | cons ht =>
      rename_i a as bs
      rcases ih as bs ht with he | hl
      · left
        simp only [List.take_succ_cons, he]
      · right
        simp only [List.take_succ_cons]
        exact List.Lex.cons hl

theorem take_le_of_le (n : Nat) (l₁ l₂ : List Char) (h : l₁ ≤ l₂) :
    l₁.take n ≤ l₂.take n := by
  rcases le_iff_lt_or_eq.mp h with hl | he
  · rcases take_lex_or_eq n l₁ l₂ hl with he2 | hl2
    · exact le_of_eq he2
    · exact le_of_lt hl2
  · subst he
    exact le_rfl

theorem jsLt_of_minutePrefix_lt {a b : String}
    (h : minutePrefix a < minutePrefix b) : jsLt a b :=
  lex_of_take_lex 16 a.toList b.toList h

theorem minutePrefix_le_of_jsLe {a b : String} (h : jsLe a b) :
    minutePrefix a ≤ minutePrefix b :=
  take_le_of_le 16 a.toList b.toList h

theorem findSameMinuteIdx_some (M : List Char) :
    ∀ (rows : List CurveRow) (i : Nat), findSameMinuteIdx M rows = some i →
      ∃ r, rows[i]? = some r ∧ minutePrefix r.1 = M := by
  intro rows
  induction rows with
  | nil => intro i h; simp [findSameMinuteIdx] at h
  | cons r rs ih =>
    intro i h
    unfold findSameMinuteIdx at h
    split at h
    · rename_i hm
      injection h with hi
      subst hi
      exact ⟨r, by simp, hm⟩
    · cases hfr : findSameMinuteIdx M rs with
      | none => rw [hfr] at h; simp at h
      | some j =>
        rw [hfr] at h
        simp only [Option.map_some'] at h
        injection h with hi
        subst hi
        obtain ⟨rr, hrr, hmm⟩ := ih j hfr
        exact ⟨rr, by simpa using hrr, hmm⟩

theorem sorted_set_same_minute (t : String) (v : ℚ) :
    ∀ (rows : List CurveRow) (i : Nat),
      List.Pairwise (fun a b : CurveRow => jsLe a.1 b.1) rows →
      rows.countP (fun r => decide (minutePrefix r.1 = minutePrefix t)) ≤ 1 →
      findSameMinuteIdx (minutePrefix t) rows = some i →
      List.Pairwise (fun a b : CurveRow => jsLe a.1 b.1) (rows.set i (t, v)) := by
  intro rows
  induction rows with
  | nil => intro i _ _ hfind; simp [findSameMinuteIdx] at hfind
  | cons r rs ih =>
    intro i hsorted hcount hfind
    rw [List.pairwise_cons] at hsorted
    unfold findSameMinuteIdx at hfind
    split at hfind
    · rename_i hm
      injection hfind with hi
      subst hi
      rw [List.set_cons_zero]
      rw [List.pairwise_cons]
      refine ⟨?_, hsorted.2⟩
      intro b hb
      have hcnt0 : rs.countP (fun r => decide (minutePrefix r.1 = minutePrefix t)) = 0 := by
        rw [List.countP_cons_of_pos _ _ (by simpa using hm)] at hcount
        omega
      have hnb : ¬ (minutePrefix b.1 = minutePrefix t) := by
        simpa using List.countP_eq_zero.mp hcnt0 b hb
      have h1 : minutePrefix t ≤ minutePrefix b.1 := by
        have := minutePrefix_le_of_jsLe (hsorted.1 b hb)
        rwa [hm] at this
      have h2 : minutePrefix t < minutePrefix b.1 :=
        lt_of_le_of_ne h1 (Ne.symm hnb)
      exact le_of_lt (jsLt_of_minutePrefix_lt h2)
    · rename_i hm
      cases hfr : findSameMinuteIdx (minutePrefix t) rs with
      | none => rw [hfr] at hfind; simp at hfind
      | some j =>
        rw [hfr] at hfind
        simp only [Option.map_some'] at hfind
        injection hfind with hi
        subst hi
        rw [List.set_cons_succ]
        rw [List.pairwise_cons]
        constructor
        · intro b hb
          rcases List.mem_or_eq_of_mem_set hb with hbs | hbx
          · exact hsorted.1 b hbs
          · subst hbx
            obtain ⟨r0, hr0get, hr0m⟩ := findSameMinuteIdx_some _ rs j hfr
            have hr0mem : r0 ∈ rs := List.getElem?_mem hr0get
            have h1 : minutePrefix r.1 ≤ minutePrefix t := by
              have := minutePrefix_le_of_jsLe (hsorted.1 r0 hr0mem)
              rwa [hr0m] at this
            have h2 : minutePrefix r.1 < minutePrefix t := lt_of_le_of_ne h1 hm
            exact le_of_lt (jsLt_of_minutePrefix_lt h2)
        · have hcnt : rs.countP (fun r => decide (minutePrefix r.1 = minutePrefix t)) ≤ 1 := by
            rw [List.countP_cons_of_neg _ _ (by simpa using hm)] at hcount
            exact hcount
          exact ih j hsorted.2 hcnt hfr

theorem mem_spliceAt (x : CurveRow) :
    ∀ (n : Nat) (l : List CurveRow) (b : CurveRow), b ∈ spliceAt n x l →
      b = x ∨ b ∈ l := by
  intro n
  induction n with
  | zero =>
    intro l b hb
    rw [spliceAt] at hb
    rcases List.mem_cons.mp hb with h | h
    · exact Or.inl h
    · exact Or.inr h
  | succ n ih =>
    intro l b hb
    cases l with
    | nil =>
      rw [spliceAt] at hb
      rcases List.mem_singleton.mp hb with h
      exact Or.inl h
    | cons r rs =>
      rw [spliceAt] at hb
      rcases List.mem_cons.mp hb with h | h
      · exact Or.inr (List.mem_cons.mpr (Or.inl h))
      · rcases ih rs b h with h2 | h2
        · exact Or.inl h2
        · exact Or.inr (List.mem_cons.mpr (Or.inr h2))

theorem sorted_splice_insert (t : String) (v : ℚ) :
    ∀ rows : List CurveRow,
      List.Pairwise (fun a b : CurveRow => jsLe a.1 b.1) rows →
      List.Pairwise (fun a b : CurveRow => jsLe a.1 b.1)
        (spliceAt (insertIdxOf t rows) (t, v) rows) := by
  intro rows
  induction rows with
  | nil =>
    intro _
    simp [insertIdxOf, spliceAt]
  | cons r rs ih =>
    intro hsorted
    rw [List.pairwise_cons] at hsorted
    unfold insertIdxOf
    split
    · rename_i hlt
      rw [spliceAt]
      rw [List.pairwise_cons]
      constructor
      · intro b hb
        rcases List.mem_cons.mp hb with hbr | hbs
        · subst hbr
          exact le_of_lt hlt
        · exact le_trans (le_of_lt hlt) (hsorted.1 b hbs)
      · rw [List.pairwise_cons]
        exact hsorted
    · rename_i hge
      rw [spliceAt]
      rw [List.pairwise_cons]
      constructor
      · intro b hb
        rcases mem_spliceAt _ _ _ _ hb with hbx | hbs
        · subst hbx
          exact le_of_not_lt hge
        · exact hsorted.1 b hbs
      · exact ih hsorted.2

theorem insertIdxOf_le_length (t : String) :
    ∀ rows : List CurveRow, insertIdxOf t rows ≤ rows.length := by
  intro rows
  induction rows with
  | nil => simp [insertIdxOf]
  | cons r rs ih =>
    unfold insertIdxOf
    split
    · simp
    · simpa using ih

theorem length_spliceAt (x : CurveRow) :
    ∀ (n : Nat) (l : List CurveRow), (spliceAt n x l).length = l.length + 1 := by
  intro n
  induction n with
  | zero => intro l; rw [spliceAt]; simp
  | succ n ih =>
    intro l
    cases l with
    | nil => rw [spliceAt]; simp
    | cons r rs => rw [spliceAt]; simp [ih rs]

/-- Claim C10 (amended): when exchange data is used, the displayed equity
is positive, the incoming data rows are sorted by time string and at most
one of them shares the minute of the current time, the enhanced curve is
again sorted by time, has at most one more row, and is the input with
either the same-minute row overwritten in place by the current point or
the current point spliced in. -/
theorem enhanced_price_curve_props (rows : List CurveRow) (t : String) (v : ℚ)
    (hv : 0 < v)
    (hsorted : rowsSortedByTime rows)
    (hone : rows.countP (fun r => decide (minutePrefix r.1 = minutePrefix t)) ≤ 1) :
    rowsSortedByTime (enhancedPriceCurve true t v rows) ∧
    (enhancedPriceCurve true t v rows).length ≤ rows.length + 1 ∧
    ((∃ i r, rows[i]? = some r ∧ minutePrefix r.1 = minutePrefix t ∧
        enhancedPriceCurve true t v rows = rows.set i (t, v)) ∨
      (∃ n, n ≤ rows.length ∧
        enhancedPriceCurve true t v rows = spliceAt n (t, v) rows)) := by
  have hcurve : enhancedPriceCurve true t v rows = enhancedRows t v rows := by
    unfold enhancedPriceCurve
    simp [hv]
  rw [hcurve]
  unfold enhancedRows
  cases hfind : findSameMinuteIdx (minutePrefix t) rows with
  | some i =>
    refine ⟨sorted_set_same_minute t v rows i hsorted hone hfind, ?_, ?_⟩
    · rw [List.length_set]
      omega
    · obtain ⟨r, hr, hm⟩ := findSameMinuteIdx_some _ rows i hfind
      exact Or.inl ⟨i, r, hr, hm, rfl⟩
  | none =>
    refine ⟨sorted_splice_insert t v rows hsorted, ?_, ?_⟩
    · rw [length_spliceAt]
    · exact Or.inr ⟨insertIdxOf t rows, insertIdxOf_le_length t rows, rfl⟩

/-- Claim C10 (witness): a concrete singleton curve with the current
point of a later minute spliced in satisfies all three conclusions. -/
theorem enhanced_price_curve_props_witness :
    (0 : ℚ) < 3 ∧
    rowsSortedByTime [("2025-01-01 10:04:10", (1 : ℚ))] ∧
    ([("2025-01-01 10:04:10", (1 : ℚ))].countP
        (fun r => decide (minutePrefix r.1 = minutePrefix "2025-01-01 10:06:30")) ≤ 1) ∧
    (rowsSortedByTime (enhancedPriceCurve true "2025-01-01 10:06:30" 3
        [("2025-01-01 10:04:10", (1 : ℚ))]) ∧
      (enhancedPriceCurve true "2025-01-01 10:06:30" 3
        [("2025-01-01 10:04:10", (1 : ℚ))]).length ≤
          [("2025-01-01 10:04:10", (1 : ℚ))].length + 1 ∧
      ((∃ i r, [("2025-01-01 10:04:10", (1 : ℚ))][i]? = some r ∧
          minutePrefix r.1 = minutePrefix "2025-01-01 10:06:30" ∧
          enhancedPriceCurve true "2025-01-01 10:06:30" 3
            [("2025-01-01 10:04:10", (1 : ℚ))] =
            [("2025-01-01 10:04:10", (1 : ℚ))].set i ("2025-01-01 10:06:30", 3)) ∨
        (∃ n, n ≤ [("2025-01-01 10:04:10", (1 : ℚ))].length ∧
          enhancedPriceCurve true "2025-01-01 10:06:30" 3
            [("2025-01-01 10:04:10", (1 : ℚ))] =
            spliceAt n ("2025-01-01 10:06:30", 3) [("2025-01-01 10:04:10", (1 : ℚ))]))) :=
  ⟨by decide, by decide, by decide,
    enhanced_price_curve_props [("2025-01-01 10:04:10", (1 : ℚ))]
      "2025-01-01 10:06:30" 3 (by decide) (by decide) (by decide)⟩

/-- Claim C10 (counterexample): with two sorted data rows inside the same
minute as the current time, the merge overwrites the first one with the
later-second current time and the result is no longer sorted, refuting
the unconditional sortedness claim. -/
theorem enhanced_price_curve_counterexample :
    (0 : ℚ) < 3 ∧
    rowsSortedByTime
      [("2025-01-01 10:05:10", (1 : ℚ)), ("2025-01-01 10:05:20", 2)] ∧
    ¬ rowsSortedByTime
      (enhancedPriceCurve true "2025-01-01 10:05:45" 3
        [("2025-01-01 10:05:10", (1 : ℚ)), ("2025-01-01 10:05:20", 2)]) :=
  ⟨by decide, by decide, by decide⟩
